import Mathlib

/-!
# Verification of `rss-download.py` (ivoox-scraping)

A shallow embedding of the podcast-fetching script: regex-based identifier
extraction, feed-URL construction, RSS first-enclosure traversal, filename
derivation and download bookkeeping, configuration validation, and the
entry-point loop.  Strings are modelled as `List Char`; the XML tree as an
inductive; the filesystem and HTTP responses as explicit values.
-/

namespace RssDownload

/-! ## Identifier extraction: `extract_id`

Python source:
```
match = re.search(r"sq_(f\d+)_", url)
return match.group(1) if match else None
```
`re.search` tries the pattern at each start position left to right.  At a
given position the literal `sq_` must match, then `f`, then the greedy
`\d+`, then `_`.  Since no shorter digit run than the maximal one can be
followed by `_` (it would be followed by a digit), backtracking inside
`\d+` never succeeds, so the attempt at one position reduces to: take the
maximal digit run after `sq_f`; it must be nonempty and be followed by
`_`. -/

/-- One attempt of the pattern `sq_(f\d+)_` anchored at the head of `s`:
literal `sq_f`, then the maximal nonempty digit run, then `_`.  Returns the
captured group (`f` plus the digits). -/
def tryMatchAt (s : List Char) : Option (List Char) :=
  match s with
  | 's' :: 'q' :: '_' :: 'f' :: rest =>
      let ds := rest.takeWhile Char.isDigit
      if ds = [] then none
      else
        match rest.dropWhile Char.isDigit with
        | '_' :: _ => some ('f' :: ds)
        | _ => none
  | _ => none

/-- `re.search`: try the pattern at each start position, leftmost first. -/
def reSearch : List Char → Option (List Char)
  | [] => none
  | c :: cs =>
    match tryMatchAt (c :: cs) with
    | some t => some t
    | none => reSearch cs

/-- `extract_id(url)`: the captured group of the leftmost match of
`sq_(f\d+)_`, or `none` when the pattern does not occur. -/
def extract_id (url : List Char) : Option (List Char) :=
  reSearch url

/-- The literal prefix `sq_f` of the pattern. -/
def sqfMarker : List Char := ['s', 'q', '_', 'f']

/-- The spec-level pattern: the URL contains the literal `sq_` followed by
`f`, one or more digits, and `_`, anywhere in the string. -/
def HasIdPattern (s : List Char) : Prop :=
  ∃ a ds b, s = a ++ sqfMarker ++ ds ++ '_' :: b ∧ ds ≠ [] ∧ ∀ c ∈ ds, c.isDigit = true

/-! ### Lemmas about `takeWhile`/`dropWhile` on a digit run -/

theorem takeWhile_digits_append (ds b : List Char) (hds : ∀ c ∈ ds, c.isDigit = true) :
    (ds ++ '_' :: b).takeWhile Char.isDigit = ds := by
  induction ds with
  | nil => simp [List.takeWhile]
  | cons d ds ih =>
      have hd : d.isDigit = true := hds d (by simp)
      simp only [List.cons_append, List.takeWhile_cons, hd, if_true]
      rw [ih (fun c hc => hds c (by simp [hc]))]

theorem dropWhile_digits_append (ds b : List Char) (hds : ∀ c ∈ ds, c.isDigit = true) :
    (ds ++ '_' :: b).dropWhile Char.isDigit = '_' :: b := by
  induction ds with
  | nil => simp [List.dropWhile]
  | cons d ds ih =>
      have hd : d.isDigit = true := hds d (by simp)
      simp only [List.cons_append, List.dropWhile_cons, hd, if_true]
      exact ih (fun c hc => hds c (by simp [hc]))

/-- A successful anchored attempt at a decomposed pattern head. -/
theorem tryMatchAt_of_pattern (ds b : List Char) (hne : ds ≠ [])
    (hds : ∀ c ∈ ds, c.isDigit = true) :
    tryMatchAt (sqfMarker ++ ds ++ '_' :: b) = some ('f' :: ds) := by
  show tryMatchAt ('s' :: 'q' :: '_' :: 'f' :: (ds ++ '_' :: b)) = some ('f' :: ds)
  unfold tryMatchAt
  simp only [takeWhile_digits_append ds b hds, dropWhile_digits_append ds b hds]
  simp [hne]

/-- A successful anchored attempt yields a decomposition of its input. -/
theorem tryMatchAt_some_shape (s t : List Char) (h : tryMatchAt s = some t) :
    ∃ ds b, s = sqfMarker ++ ds ++ '_' :: b ∧ ds ≠ [] ∧ (∀ c ∈ ds, c.isDigit = true) ∧
      t = 'f' :: ds := by
  unfold tryMatchAt at h
  split at h
  case _ rest =>
    by_cases hds : rest.takeWhile Char.isDigit = []
    · simp [hds] at h
    · simp only [hds, if_false] at h
      split at h
      case _ b hdrop =>
        simp only [Option.some.injEq] at h
        refine ⟨rest.takeWhile Char.isDigit, b, ?_, hds, ?_, h.symm⟩
        · have hsplit : rest.takeWhile Char.isDigit ++ rest.dropWhile Char.isDigit = rest :=
            List.takeWhile_append_dropWhile Char.isDigit rest
          rw [hdrop] at hsplit
          show 's' :: 'q' :: '_' :: 'f' :: rest =
            's' :: 'q' :: '_' :: 'f' :: (rest.takeWhile Char.isDigit ++ '_' :: b)
          rw [hsplit]
        · intro c hc
          exact List.mem_takeWhile_imp hc
      case _ => exact absurd h (by simp)
  case _ => exact absurd h (by simp)

theorem reSearch_some_shape (s t : List Char) (h : reSearch s = some t) :
    ∃ a ds b, s = a ++ sqfMarker ++ ds ++ '_' :: b ∧ ds ≠ [] ∧
      (∀ c ∈ ds, c.isDigit = true) ∧ t = 'f' :: ds := by
  induction s with
  | nil => simp [reSearch] at h
  | cons c cs ih =>
      unfold reSearch at h
      split at h
      case _ t' hm =>
        simp only [Option.some.injEq] at h
        obtain ⟨ds, b, hs, hne, hds, ht⟩ := tryMatchAt_some_shape _ _ hm
        exact ⟨[], ds, b, by simpa using hs, hne, hds, h ▸ ht⟩
      case _ hm =>
        obtain ⟨a, ds, b, hs, hne, hds, ht⟩ := ih h
        exact ⟨c :: a, ds, b, by simp [hs], hne, hds, ht⟩

theorem reSearch_isSome_of_pattern (s : List Char) (h : HasIdPattern s) :
    (reSearch s).isSome = true := by
  obtain ⟨a, ds, b, hs, hne, hds⟩ := h
  subst hs
  induction a with
  | nil =>
      simp only [List.nil_append]
      have hrw : sqfMarker ++ ds ++ '_' :: b =
          's' :: 'q' :: '_' :: 'f' :: (ds ++ '_' :: b) := by simp [sqfMarker]
      rw [hrw]
      unfold reSearch
      have hmatch := tryMatchAt_of_pattern ds b hne hds
      rw [hrw] at hmatch
      rw [hmatch]
      simp
  | cons c a ih =>
      simp only [List.cons_append]
      unfold reSearch
      split
      · simp
      · simp only [List.cons_append] at ih ⊢
        exact ih

/-- C1: for every URL containing `sq_` + `f` + digits + `_`, `extract_id`
returns exactly a captured token of that shape coming from a decomposition
of the URL; for every URL with no such match it returns `none`, without
raising. -/
theorem C1_extract_id_correct (s : List Char) :
    (HasIdPattern s →
      ∃ a ds b, s = a ++ sqfMarker ++ ds ++ '_' :: b ∧ ds ≠ [] ∧
        (∀ c ∈ ds, c.isDigit = true) ∧ extract_id s = some ('f' :: ds)) ∧
    (¬ HasIdPattern s → extract_id s = none) := by
  constructor
  · intro h
    have hsome := reSearch_isSome_of_pattern s h
    obtain ⟨t, ht⟩ := Option.isSome_iff_exists.mp hsome
    obtain ⟨a, ds, b, hs, hne, hds, htok⟩ := reSearch_some_shape s t ht
    exact ⟨a, ds, b, hs, hne, hds, by rw [extract_id, ht, htok]⟩
  · intro h
    cases hr : reSearch s with
    | none => exact hr
    | some t =>
        obtain ⟨a, ds, b, hs, hne, hds, _⟩ := reSearch_some_shape s t hr
        exact absurd ⟨a, ds, b, hs, hne, hds⟩ h

theorem C1_extract_id_correct_witness :
    (∃ a ds b, ['s', 'q', '_', 'f', '1', '2', '_', 'x'] =
        a ++ sqfMarker ++ ds ++ '_' :: b ∧ ds ≠ [] ∧
        (∀ c ∈ ds, c.isDigit = true) ∧
        extract_id ['s', 'q', '_', 'f', '1', '2', '_', 'x'] = some ('f' :: ds)) ∧
    extract_id [] = none :=
  ⟨(C1_extract_id_correct ['s', 'q', '_', 'f', '1', '2', '_', 'x']).1
      ⟨[], ['1', '2'], ['x'], by decide, by decide, by decide⟩,
   (C1_extract_id_correct []).2 (by rintro ⟨a, ds, b, h, -, -⟩; simp [sqfMarker] at h)⟩

/-! ## Feed URL construction: `build_feed_url`

Python source:
```
return f"https://feeds.ivoox.com/feed_fg_{ivoox_id}_filtro_1.xml"
```
-/

/-- The part of the feed-URL template before the identifier. -/
def feedUrlPre : List Char := "https://feeds.ivoox.com/feed_fg_".toList

/-- The part of the feed-URL template after the identifier. -/
def feedUrlPost : List Char := "_filtro_1.xml".toList

/-- `build_feed_url(ivoox_id)`: the f-string substitutes the identifier
between the two fixed template parts. -/
def build_feed_url (ivoox_id : List Char) : List Char :=
  feedUrlPre ++ ivoox_id ++ feedUrlPost

/-- C5: `build_feed_url` follows the template
`https://feeds.ivoox.com/feed_fg_{id}_filtro_1.xml`, is deterministic
(equal identifiers give equal URLs), and is injective (distinct
identifiers give distinct URLs). -/
theorem C5_build_feed_url_template_injective :
    (∀ ivoox_id : List Char,
      build_feed_url ivoox_id =
        "https://feeds.ivoox.com/feed_fg_".toList ++ ivoox_id ++ "_filtro_1.xml".toList) ∧
    (∀ i j : List Char, i = j → build_feed_url i = build_feed_url j) ∧
    Function.Injective build_feed_url := by
  refine ⟨fun i => rfl, fun i j h => by rw [h], fun i j h => ?_⟩
  unfold build_feed_url at h
  have h1 := List.append_cancel_right h
  exact List.append_cancel_left h1

theorem C5_build_feed_url_template_injective_witness :
    build_feed_url "f1".toList ≠ build_feed_url "f2".toList := fun h =>
  absurd (C5_build_feed_url_template_injective.2.2 h) (by decide)

/-! ## RSS traversal: `get_first_mp3_enclosure`

Python source (after the network fetch and `ET.fromstring`, which are
abstracted away: the function below receives the parsed XML root):
```
channel = root.find("channel")
if channel is None: return None
item = channel.find("item")
if item is None: return None
enclosure = item.find("enclosure")
if enclosure is None: return None
url = enclosure.get("url")
if url and url.lower().endswith(".mp3"): return url
return url
```
-/

/-- An XML element: tag, attributes in document order, children in
document order. -/
inductive XmlElem : Type where
  | elem (tag : String) (attrs : List (String × String)) (children : List XmlElem)

def XmlElem.tag : XmlElem → String
  | .elem t _ _ => t

def XmlElem.attrs : XmlElem → List (String × String)
  | .elem _ a _ => a

def XmlElem.children : XmlElem → List XmlElem
  | .elem _ _ c => c

/-- `Element.find(tag)`: the first direct child with the given tag. -/
def XmlElem.find (e : XmlElem) (t : String) : Option XmlElem :=
  e.children.find? (fun c => c.tag == t)

/-- `Element.get(key)`: the value of the attribute, or `None`. -/
def XmlElem.getAttr (e : XmlElem) (key : String) : Option String :=
  (e.attrs.find? (fun p => p.1 == key)).map (fun p => p.2)

/-- The audio-file marker `.mp3`. -/
def mp3Marker : List Char := ['.', 'm', 'p', '3']

/-- `str.lower()` on a character list (ASCII case folding). -/
def pyLower (s : List Char) : List Char := s.map Char.toLower

/-- The traversal of `get_first_mp3_enclosure` on the parsed feed root. -/
def get_first_mp3_enclosure (root : XmlElem) : Option String :=
  match root.find "channel" with
  | none => none
  | some channel =>
    match channel.find "item" with
    | none => none
    | some item =>
      match item.find "enclosure" with
      | none => none
      | some enclosure =>
        match enclosure.getAttr "url" with
        | none => none
        | some url =>
          if url ≠ "" ∧ mp3Marker.isSuffixOf (pyLower url.toList) then some url
          else some url

/-- C2: a feed whose root has no `channel` child, or whose first `channel`
has no `item` child, or whose first `item` has no `enclosure` child, makes
`get_first_mp3_enclosure` return `none` in each of the three cases. -/
theorem C2_enclosure_absent_cases (root : XmlElem) :
    (root.find "channel" = none → get_first_mp3_enclosure root = none) ∧
    (∀ ch, root.find "channel" = some ch → ch.find "item" = none →
      get_first_mp3_enclosure root = none) ∧
    (∀ ch it, root.find "channel" = some ch → ch.find "item" = some it →
      it.find "enclosure" = none → get_first_mp3_enclosure root = none) := by
  refine ⟨fun h1 => ?_, fun ch h1 h2 => ?_, fun ch it h1 h2 h3 => ?_⟩ <;>
    unfold get_first_mp3_enclosure
  · simp only [h1]
  · simp only [h1, h2]
  · simp only [h1, h2, h3]

theorem C2_enclosure_absent_cases_witness :
    get_first_mp3_enclosure (.elem "rss" [] []) = none ∧
    get_first_mp3_enclosure (.elem "rss" [] [.elem "channel" [] []]) = none ∧
    get_first_mp3_enclosure
      (.elem "rss" [] [.elem "channel" [] [.elem "item" [] []]]) = none :=
  ⟨(C2_enclosure_absent_cases _).1 rfl,
   (C2_enclosure_absent_cases _).2.1 (.elem "channel" [] []) rfl rfl,
   (C2_enclosure_absent_cases _).2.2 (.elem "channel" [] [.elem "item" [] []])
     (.elem "item" [] []) rfl rfl rfl⟩

/-- C3: when the first item's first enclosure carries a `url` attribute,
`get_first_mp3_enclosure` returns its value verbatim, whether or not the
value ends in `.mp3`. -/
theorem C3_enclosure_url_verbatim (root ch it enc : XmlElem) (u : String)
    (h1 : root.find "channel" = some ch) (h2 : ch.find "item" = some it)
    (h3 : it.find "enclosure" = some enc) (h4 : enc.getAttr "url" = some u) :
    get_first_mp3_enclosure root = some u := by
  unfold get_first_mp3_enclosure
  simp only [h1, h2, h3, h4]
  split <;> rfl

theorem C3_enclosure_url_verbatim_witness :
    get_first_mp3_enclosure
      (.elem "rss" [] [.elem "channel" [] [.elem "item" []
        [.elem "enclosure" [("url", "http://example.com/ep1.mp3")] []]]]) =
      some "http://example.com/ep1.mp3" ∧
    get_first_mp3_enclosure
      (.elem "rss" [] [.elem "channel" [] [.elem "item" []
        [.elem "enclosure" [("url", "http://example.com/ep1.ogg")] []]]]) =
      some "http://example.com/ep1.ogg" :=
  ⟨C3_enclosure_url_verbatim _ (.elem "channel" [] [.elem "item" []
      [.elem "enclosure" [("url", "http://example.com/ep1.mp3")] []]])
      (.elem "item" [] [.elem "enclosure" [("url", "http://example.com/ep1.mp3")] []])
      (.elem "enclosure" [("url", "http://example.com/ep1.mp3")] [])
      "http://example.com/ep1.mp3" rfl rfl rfl rfl,
   C3_enclosure_url_verbatim _ (.elem "channel" [] [.elem "item" []
      [.elem "enclosure" [("url", "http://example.com/ep1.ogg")] []]])
      (.elem "item" [] [.elem "enclosure" [("url", "http://example.com/ep1.ogg")] []])
      (.elem "enclosure" [("url", "http://example.com/ep1.ogg")] [])
      "http://example.com/ep1.ogg" rfl rfl rfl rfl⟩

/-- C9: when the first item's first enclosure carries no `url` attribute,
`get_first_mp3_enclosure` returns `none` — a fourth absence case. -/
theorem C9_enclosure_without_url_absent (root ch it enc : XmlElem)
    (h1 : root.find "channel" = some ch) (h2 : ch.find "item" = some it)
    (h3 : it.find "enclosure" = some enc) (h4 : enc.getAttr "url" = none) :
    get_first_mp3_enclosure root = none := by
  unfold get_first_mp3_enclosure
  simp only [h1, h2, h3, h4]

theorem C9_enclosure_without_url_absent_witness :
    get_first_mp3_enclosure
      (.elem "rss" [] [.elem "channel" [] [.elem "item" []
        [.elem "enclosure" [("length", "12345")] []]]]) = none :=
  C9_enclosure_without_url_absent _
    (.elem "channel" [] [.elem "item" [] [.elem "enclosure" [("length", "12345")] []]])
    (.elem "item" [] [.elem "enclosure" [("length", "12345")] []])
    (.elem "enclosure" [("length", "12345")] []) rfl rfl rfl rfl

/-! ## Filename derivation inside `download_mp3`

Python source:
```
filename = mp3_url.split("/")[-1]
if not filename.lower().endswith(".mp3"):
    idx = filename.lower().find(".mp3")
    if idx != -1:
        filename = filename[: idx + 4]  # keep the '.mp3' part
```
-/

/-- `mp3_url.split("/")[-1]`: Python's split on a one-character separator
keeps empty parts and always yields a nonempty list; `[-1]` is its last
element. -/
def lastSegment (url : List Char) : List Char := (url.splitOn '/').getLastD []

/-- `str.find(sub)`: index of the first occurrence, `none` when absent. -/
def strFind (needle : List Char) : List Char → Option Nat
  | [] => if needle = [] then some 0 else none
  | c :: cs =>
    if needle.isPrefixOf (c :: cs) then some 0
    else (strFind needle cs).map (fun i => i + 1)

/-- The filename computed by `download_mp3` from the enclosure URL. -/
def derive_filename (mp3_url : List Char) : List Char :=
  let filename := lastSegment mp3_url
  if mp3Marker.isSuffixOf (pyLower filename) then filename
  else
    match strFind mp3Marker (pyLower filename) with
    | some idx => filename.take (idx + 4)
    | none => filename

theorem isPrefixOf_append_self (l t : List Char) : l.isPrefixOf (l ++ t) = true := by
  induction l with
  | nil => simp [List.isPrefixOf]
  | cons c cs ih => simp [List.isPrefixOf, ih]

/-- `strFind` returns the first index at which the needle occurs. -/
theorem strFind_eq_some (needle : List Char) :
    ∀ (s : List Char) (i : Nat),
      needle.isPrefixOf (s.drop i) = true →
      (∀ j, j < i → needle.isPrefixOf (s.drop j) = false) →
      strFind needle s = some i := by
  intro s
  induction s with
  | nil =>
      intro i hpref hmin
      simp only [List.drop_nil] at hpref
      have hne : needle = [] := by
        cases needle with
        | nil => rfl
        | cons c cs => simp [List.isPrefixOf] at hpref
      cases i with
      | zero => simp [strFind, hne]
      | succ i' =>
          have := hmin 0 (Nat.succ_pos _)
          rw [List.drop_nil] at this
          rw [hne] at this
          simp [List.isPrefixOf] at this
  | cons c cs ih =>
      intro i hpref hmin
      unfold strFind
      by_cases hp : needle.isPrefixOf (c :: cs) = true
      · cases i with
        | zero => simp [hp]
        | succ i' =>
            have := hmin 0 (Nat.succ_pos _)
            rw [List.drop_zero] at this
            rw [this] at hp
            exact absurd hp (by simp)
      · have hpfalse : needle.isPrefixOf (c :: cs) = false := by
          exact Bool.not_eq_true _ ▸ Bool.of_not_eq_true hp
        cases i with
        | zero =>
            rw [List.drop_zero] at hpref
            exact absurd hpref hp
        | succ i' =>
            have hrec : strFind needle cs = some i' := by
              apply ih i'
              · simpa using hpref
              · intro j hj
                have := hmin (j + 1) (Nat.succ_lt_succ hj)
                simpa using this
            simp [hpfalse, hrec]

/-- C4: the filename is the last `/`-separated segment of the media URL;
when that segment does not end with `.mp3` but contains it, the segment is
truncated to end immediately after the first occurrence; the two
spec examples hold, and derivation leaves already-clean segments
untouched. -/
theorem C4_derive_filename_spec :
    derive_filename ".../episode.mp3?token=abc".toList = "episode.mp3".toList ∧
    derive_filename ".../episode.mp3".toList = "episode.mp3".toList ∧
    (∀ url seg pre suf : List Char,
      lastSegment url = seg →
      pyLower seg = pre ++ mp3Marker ++ suf →
      mp3Marker.isSuffixOf (pyLower seg) = false →
      (∀ j, j < pre.length →
        mp3Marker.isPrefixOf ((pre ++ mp3Marker ++ suf).drop j) = false) →
      derive_filename url = seg.take (pre.length + 4)) ∧
    (∀ url : List Char, mp3Marker.isSuffixOf (pyLower (lastSegment url)) = true →
      derive_filename url = lastSegment url) := by
  refine ⟨by decide, by decide, ?_, ?_⟩
  · intro url seg pre suf hseg hlow hnotend hfirst
    have hfind : strFind mp3Marker (pyLower seg) = some pre.length := by
      apply strFind_eq_some
      · rw [hlow, List.append_assoc, List.drop_left]
        exact isPrefixOf_append_self _ _
      · intro j hj
        rw [hlow]
        exact hfirst j hj
    simp only [derive_filename, hseg, hnotend, Bool.false_eq_true, if_false, hfind]
  · intro url hend
    simp only [derive_filename, hend, if_true]

theorem C4_derive_filename_spec_witness :
    derive_filename "a/b.mp3?x".toList = ("b.mp3?x".toList).take ("b".toList.length + 4) ∧
    derive_filename "a/b.mp3".toList = lastSegment "a/b.mp3".toList :=
  ⟨C4_derive_filename_spec.2.2.1 "a/b.mp3?x".toList "b.mp3?x".toList "b".toList
      "?x".toList (by decide) (by decide) (by decide) (by decide),
   C4_derive_filename_spec.2.2.2 "a/b.mp3".toList (by decide)⟩

/-! ## Directory creation and download: `download_mp3`

Python source:
```
os.makedirs(dest_folder, exist_ok=True)
filename = ...              # see derive_filename above
dest_path = os.path.join(dest_folder, filename)
with requests.get(mp3_url, stream=True) as r:
    r.raise_for_status()
    with open(dest_path, "wb") as f:
        for chunk in r.iter_content(chunk_size=8192):
            if chunk:
                f.write(chunk)
return dest_path
```
The filesystem is modelled as the set of existing directory paths (each a
list of segments) plus a file store; the HTTP layer as a given response
(status and body chunks). -/

/-- A filesystem path, as a list of segments. -/
abbrev DirPath := List (List Char)

/-- Every nonempty prefix of a path: the chain of directories `makedirs`
creates, ancestors first. -/
def dirPrefixes (p : DirPath) : List DirPath :=
  (List.range p.length).map (fun i => p.take (i + 1))

/-- Create one directory unless it already exists. -/
def insertDir (dirs : List DirPath) (d : DirPath) : List DirPath :=
  if d ∈ dirs then dirs else dirs ++ [d]

/-- `os.makedirs(p, exist_ok)`: creates the whole chain of missing
ancestors; with `exist_ok=False` it raises `FileExistsError` when the leaf
directory already exists, with `exist_ok=True` it never raises. -/
def makedirs (dirs : List DirPath) (p : DirPath) (exist_ok : Bool) :
    Except (List Char) (List DirPath) :=
  if p ∈ dirs ∧ exist_ok = false then .error "FileExistsError".toList
  else .ok ((dirPrefixes p).foldl insertDir dirs)

/-- An HTTP response: status code and streamed body chunks. -/
structure HttpResponse where
  status : Nat
  chunks : List (List Nat)

/-- Filesystem state: existing directories and written files. -/
structure FsState where
  dirs : List DirPath
  files : List (DirPath × List Nat)

/-- Write (or overwrite) a file. -/
def writeFile (files : List (DirPath × List Nat)) (p : DirPath) (content : List Nat) :
    List (DirPath × List Nat) :=
  files.filter (fun f => f.1 ≠ p) ++ [(p, content)]

/-- `download_mp3(mp3_url, dest_folder)` as a filesystem/HTTP transition:
ensure the destination directory exists (`exist_ok=True`), derive the
filename, check the response status (`raise_for_status`), stream the
non-empty chunks to the destination path, and return it. -/
def download_mp3 (st : FsState) (mp3_url : List Char) (dest_folder : DirPath)
    (resp : HttpResponse) : Except (List Char) (FsState × DirPath) :=
  match makedirs st.dirs dest_folder true with
  | .error e => .error e
  | .ok dirs2 =>
    let filename := derive_filename mp3_url
    let dest_path := dest_folder ++ [filename]
    if 400 ≤ resp.status then .error "HTTPError".toList
    else
      let content := (resp.chunks.filter (fun c => c ≠ [])).flatten
      .ok ({ dirs := dirs2, files := writeFile st.files dest_path content }, dest_path)

theorem mem_foldl_insertDir_of_mem (l : List DirPath) :
    ∀ (dirs : List DirPath) (q : DirPath), q ∈ dirs → q ∈ l.foldl insertDir dirs := by
  induction l with
  | nil => intro dirs q hq; simpa using hq
  | cons d l ih =>
      intro dirs q hq
      rw [List.foldl_cons]
      apply ih
      unfold insertDir
      split
      · exact hq
      · exact List.mem_append_left _ hq

theorem mem_foldl_insertDir_of_mem_list (l : List DirPath) :
    ∀ (dirs : List DirPath) (q : DirPath), q ∈ l → q ∈ l.foldl insertDir dirs := by
  induction l with
  | nil => intro dirs q hq; simp at hq
  | cons d l ih =>
      intro dirs q hq
      rw [List.foldl_cons]
      rcases List.mem_cons.mp hq with hq | hq
      · subst hq
        apply mem_foldl_insertDir_of_mem
        unfold insertDir
        split
        · assumption
        · exact List.mem_append_right _ (by simp)
      · exact ih _ _ hq

theorem foldl_insertDir_of_subset (l : List DirPath) :
    ∀ dirs : List DirPath, (∀ q ∈ l, q ∈ dirs) → l.foldl insertDir dirs = dirs := by
  induction l with
  | nil => intro dirs _; rfl
  | cons d l ih =>
      intro dirs hsub
      have hd : insertDir dirs d = dirs := by
        unfold insertDir
        rw [if_pos (hsub d (by simp))]
      show List.foldl insertDir (insertDir dirs d) l = dirs
      rw [hd]
      exact ih dirs (fun q hq => hsub q (by simp [hq]))

/-- C7: `download_mp3` first ensures the destination directory exists:
`makedirs` with `exist_ok=True` never raises (in particular not when the
directory already exists), the whole ancestor chain of the destination is
present afterwards, and when the chain already exists directory creation
changes nothing. -/
theorem C7_download_mp3_ensures_dest_dir (st : FsState) (url : List Char)
    (dest : DirPath) (resp : HttpResponse) (hok : resp.status < 400) :
    (∀ dirs : List DirPath, (makedirs dirs dest true).isOk = true) ∧
    ∃ st2 p, download_mp3 st url dest resp = .ok (st2, p) ∧
      (∀ q ∈ dirPrefixes dest, q ∈ st2.dirs) ∧
      ((∀ q ∈ dirPrefixes dest, q ∈ st.dirs) → st2.dirs = st.dirs) := by
  constructor
  · intro dirs
    simp [makedirs, Except.isOk, Except.toBool]
  · have hmk : makedirs st.dirs dest true =
        .ok ((dirPrefixes dest).foldl insertDir st.dirs) := by
      simp [makedirs]
    have hlt : ¬ (400 ≤ resp.status) := Nat.not_le.mpr hok
    refine ⟨{ dirs := (dirPrefixes dest).foldl insertDir st.dirs,
              files := writeFile st.files (dest ++ [derive_filename url])
                ((resp.chunks.filter (fun c => c ≠ [])).flatten) },
            dest ++ [derive_filename url], ?_, ?_, ?_⟩
    · unfold download_mp3
      simp only [hmk, if_neg hlt]
    · intro q hq
      exact mem_foldl_insertDir_of_mem_list _ _ _ hq
    · intro hsub
      exact foldl_insertDir_of_subset _ _ hsub

theorem C7_download_mp3_ensures_dest_dir_witness :
    (∀ dirs : List DirPath, (makedirs dirs [['d']] true).isOk = true) ∧
    ∃ st2 p, download_mp3 ⟨[[['d']]], []⟩ "u.mp3".toList [['d']]
        ⟨200, [[1]]⟩ = .ok (st2, p) ∧
      (∀ q ∈ dirPrefixes [['d']], q ∈ st2.dirs) ∧
      ((∀ q ∈ dirPrefixes [['d']], q ∈ (⟨[[['d']]], []⟩ : FsState).dirs) →
        st2.dirs = (⟨[[['d']]], []⟩ : FsState).dirs) :=
  C7_download_mp3_ensures_dest_dir ⟨[[['d']]], []⟩ "u.mp3".toList [['d']]
    ⟨200, [[1]]⟩ (by decide)



/-! ## Configuration validation: `ConfigLoader._validate`

Python source:
```
if "downloaded_podcast_audio" not in data:
    raise ValueError("Missing required field: downloaded_podcast_audio")
if "podcast_url" not in data:
    raise ValueError("Missing required field: podcast_url")
if not isinstance(data["podcast_url"], list):
    raise ValueError("podcast_url must be an array of strings")
```
-/

/-- A parsed YAML/Python value, as far as validation inspects it. -/
inductive PyVal : Type where
  | str (s : List Char)
  | int (n : Int)
  | bool (b : Bool)
  | list (l : List PyVal)
  | none

/-- `key in data` on a mapping. -/
def dictContains (d : List (List Char × PyVal)) (k : List Char) : Bool :=
  d.any (fun p => p.1 == k)

/-- `data[key]` lookup (first binding). -/
def dictGet (d : List (List Char × PyVal)) (k : List Char) : Option PyVal :=
  (d.find? (fun p => p.1 == k)).map (fun p => p.2)

/-- `isinstance(v, list)`. -/
def PyVal.isList : PyVal → Bool
  | .list _ => true
  | _ => false

def dpaKey : List Char := "downloaded_podcast_audio".toList

def puKey : List Char := "podcast_url".toList

def msgMissingDpa : List Char := "Missing required field: downloaded_podcast_audio".toList

def msgMissingPu : List Char := "Missing required field: podcast_url".toList

def msgPuType : List Char := "podcast_url must be an array of strings".toList

/-- `ConfigLoader._validate(data)` as a result value: the raised
`ValueError` message, or acceptance.  The `KeyError` branch is Python's
subscript on a missing key; it is unreachable after the membership
check. -/
def ConfigLoader_validate (data : List (List Char × PyVal)) : Except (List Char) Unit :=
  if ¬ dictContains data dpaKey then .error msgMissingDpa
  else if ¬ dictContains data puKey then .error msgMissingPu
  else
    match dictGet data puKey with
    | some v => if ¬ v.isList then .error msgPuType else .ok ()
    | none => .error "KeyError: podcast_url".toList

/-- A substring test (used to state that an error message names a field). -/
def occursIn (needle hay : List Char) : Bool := (strFind needle hay).isSome

/-- C6 counterexample: the empty mapping lacks `podcast_url`, but
validation fails with the message naming `downloaded_podcast_audio`, which
does not mention `podcast_url` — the first missing-field check wins, so
the error does not name `podcast_url`. -/
theorem C6_validate_counterexample :
    ConfigLoader_validate [] = .error msgMissingDpa ∧
    occursIn puKey msgMissingDpa = false := by
  constructor
  · rfl
  · decide

/-- C6 (amended): when `downloaded_podcast_audio` is present but
`podcast_url` is missing, validation fails naming `podcast_url`; when both
keys are present and the `podcast_url` value is not a list, validation
fails with the wrong-type message (which also names the field); when
`downloaded_podcast_audio` is missing, validation fails naming that
field. -/
theorem C6_validate_amended (data : List (List Char × PyVal)) :
    (dictContains data dpaKey = true → dictContains data puKey = false →
      ConfigLoader_validate data = .error msgMissingPu ∧
      occursIn puKey msgMissingPu = true) ∧
    (dictContains data dpaKey = true →
     ∀ v, dictGet data puKey = some v → v.isList = false →
      ConfigLoader_validate data = .error msgPuType ∧
      occursIn puKey msgPuType = true) ∧
    (dictContains data dpaKey = false →
      ConfigLoader_validate data = .error msgMissingDpa ∧
      occursIn dpaKey msgMissingDpa = true) := by
  refine ⟨fun h1 h2 => ⟨?_, by decide⟩, fun h1 v hget hlist => ⟨?_, by decide⟩,
    fun h1 => ⟨?_, by decide⟩⟩
  · unfold ConfigLoader_validate
    rw [h1, h2]
    simp
  · have h2 : dictContains data puKey = true := by
      unfold dictGet at hget
      cases hf : data.find? (fun q => q.1 == puKey) with
      | none => rw [hf] at hget; simp at hget
      | some q =>
          have hp := List.find?_some hf
          exact List.any_eq_true.mpr ⟨q, List.mem_of_find?_eq_some hf, hp⟩
    unfold ConfigLoader_validate
    rw [h1, h2, hget]
    simp [hlist]
  · unfold ConfigLoader_validate
    rw [h1]
    simp

theorem C6_validate_amended_witness :
    (ConfigLoader_validate [(dpaKey, PyVal.str "out".toList)] = .error msgMissingPu ∧
      occursIn puKey msgMissingPu = true) ∧
    (ConfigLoader_validate
        [(dpaKey, PyVal.str "out".toList), (puKey, PyVal.str "x".toList)] =
        .error msgPuType ∧ occursIn puKey msgPuType = true) ∧
    (ConfigLoader_validate [] = .error msgMissingDpa ∧
      occursIn dpaKey msgMissingDpa = true) :=
  ⟨(C6_validate_amended _).1 (by decide) (by decide),
   (C6_validate_amended _).2.1 (by decide) (PyVal.str "x".toList) rfl rfl,
   (C6_validate_amended _).2.2 rfl⟩

/-! ## The entry point (`__main__` loop)

Python source:
```
for podcast_url in config.podcast_url:
    ivoox_id = extract_id(podcast_url)
    if ivoox_id:
        feed_url = build_feed_url(ivoox_id)
        print(feed_url)
    else:
        print("ID not found")

    mp3_url = get_first_mp3_enclosure(feed_url)
    print("First MP3 URL:", mp3_url)
    saved_file = download_mp3(mp3_url, 'downloaded_podcast_audio')
    print("Saved:", saved_file)
```
`feed_url` is only assigned inside the `if` branch; the call below the
`if`/`else` runs in both branches.  The network is an oracle `feeds`
mapping a feed URL to its parsed XML document (fetching and the download
body are assumed to succeed; only the calls made are recorded). -/

/-- The loaded configuration dataclass `PodcastConfig`. -/
structure PodcastConfig where
  downloaded_podcast_audio : List Char
  podcast_url : List (List Char)

/-- One record per `download_mp3` call made by the loop: the first
argument (possibly `None`) and the destination-folder argument. -/
structure DownloadCall where
  mp3_url : Option String
  dest_folder : List Char
deriving DecidableEq

/-- How a run of the loop aborts. -/
inductive MainAbort : Type where
  /-- `feed_url` read before any assignment (first iteration hits the
  `else` branch). -/
  | nameError
  /-- `download_mp3(None, ...)`: `None.split` raises. -/
  | attributeError
deriving DecidableEq

/-- The per-iteration update of `feed_url`: reassigned on a successful ID
extraction, untouched (keeping the previous iteration's value) on the
`ID not found` branch. -/
def nextFeedUrl (prev : Option (List Char)) (podcast_url : List Char) :
    Option (List Char) :=
  match extract_id podcast_url with
  | some ivoox_id => some (build_feed_url ivoox_id)
  | none => prev

/-- The entry-point loop.  The first component collects the
`download_mp3` calls made; the second is the abort, if one occurs. -/
def mainLoop (feeds : List Char → XmlElem) :
    Option (List Char) → List (List Char) → List DownloadCall × Option MainAbort
  | _, [] => ([], none)
  | feedUrl?, u :: us =>
    match nextFeedUrl feedUrl? u with
    | none => ([], some .nameError)
    | some feed_url =>
      match get_first_mp3_enclosure (feeds feed_url) with
      | none => ([⟨none, "downloaded_podcast_audio".toList⟩], some .attributeError)
      | some m =>
        let rest := mainLoop feeds (some feed_url) us
        (⟨some m, "downloaded_podcast_audio".toList⟩ :: rest.1, rest.2)

/-- `__main__` after `loader.load()`: the loop starts with `feed_url`
unassigned. -/
def main_run (config : PodcastConfig) (feeds : List Char → XmlElem) :
    List DownloadCall × Option MainAbort :=
  mainLoop feeds none config.podcast_url

/-- C8: every `download_mp3` call made by the entry point passes the
hardcoded literal `downloaded_podcast_audio` as destination, and the whole
run is unchanged when the configured output directory changes. -/
theorem C8_hardcoded_dest_folder (config : PodcastConfig)
    (feeds : List Char → XmlElem) :
    (∀ call ∈ (main_run config feeds).1,
      call.dest_folder = "downloaded_podcast_audio".toList) ∧
    (∀ d : List Char,
      main_run { config with downloaded_podcast_audio := d } feeds =
        main_run config feeds) := by
  constructor
  · show ∀ call ∈ (mainLoop feeds none config.podcast_url).1,
      call.dest_folder = "downloaded_podcast_audio".toList
    generalize none = fu
    induction config.podcast_url generalizing fu with
    | nil => intro call hc; simp [mainLoop] at hc
    | cons u us ih =>
        intro call hc
        unfold mainLoop at hc
        split at hc
        · simp at hc
        · split at hc
          · simp at hc
            subst hc
            rfl
          · simp at hc
            rcases hc with hc | hc
            · subst hc
              rfl
            · exact ih _ call (by simpa using hc)
  · intro d
    rfl

theorem C8_hardcoded_dest_folder_witness :
    (⟨some "e.mp3", "downloaded_podcast_audio".toList⟩ :
        DownloadCall).dest_folder = "downloaded_podcast_audio".toList ∧
    main_run ⟨"other".toList, ["x_sq_f1_y".toList]⟩
        (fun _ => .elem "rss" [] [.elem "channel" [] [.elem "item" []
          [.elem "enclosure" [("url", "e.mp3")] []]]]) =
      main_run ⟨"out".toList, ["x_sq_f1_y".toList]⟩
        (fun _ => .elem "rss" [] [.elem "channel" [] [.elem "item" []
          [.elem "enclosure" [("url", "e.mp3")] []]]]) :=
  ⟨(C8_hardcoded_dest_folder ⟨"out".toList, ["x_sq_f1_y".toList]⟩
      (fun _ => .elem "rss" [] [.elem "channel" [] [.elem "item" []
        [.elem "enclosure" [("url", "e.mp3")] []]]])).1
      ⟨some "e.mp3", "downloaded_podcast_audio".toList⟩ (by decide),
   (C8_hardcoded_dest_folder ⟨"out".toList, ["x_sq_f1_y".toList]⟩
      (fun _ => .elem "rss" [] [.elem "channel" [] [.elem "item" []
        [.elem "enclosure" [("url", "e.mp3")] []]]])).2 "other".toList⟩

/-- C10: the `ID not found` branch does not skip the rest of the loop
body: when extraction fails on the first URL the loop reads `feed_url`
while it is still unassigned (a `NameError`), and when extraction fails on
a later URL the previous iteration's feed URL is reused unchanged. -/
theorem C10_id_not_found_unguarded (feeds : List Char → XmlElem) :
    (∀ u us, extract_id u = none →
      mainLoop feeds none (u :: us) = ([], some .nameError)) ∧
    (∀ prev u, extract_id u = none → nextFeedUrl (some prev) u = some prev) := by
  constructor
  · intro u us h
    unfold mainLoop
    rw [nextFeedUrl, h]
  · intro prev u h
    rw [nextFeedUrl, h]

theorem C10_id_not_found_unguarded_witness :
    mainLoop (fun _ => .elem "rss" [] []) none ["nope".toList] =
      ([], some .nameError) ∧
    nextFeedUrl (some "prev".toList) "nope".toList = some "prev".toList :=
  ⟨(C10_id_not_found_unguarded (fun _ => .elem "rss" [] [])).1
      "nope".toList [] (by decide),
   (C10_id_not_found_unguarded (fun _ => .elem "rss" [] [])).2
      "prev".toList "nope".toList (by decide)⟩

end RssDownload
